import Mathlib

/-!
Verification development for the Safari tabs picker CLI (`src/main.py`).

The program keeps five module-level mutable registries: the undo stack of
closed-tab urls (`closed_tabs_stack`), two time dictionaries keyed by url
(`tab_start_times`, `tab_active_times`), the per-window lists of seen tabs
(`windows`), and the letter-to-tab map (`ui_letter_map`).  The main loop
polls a snapshot of the open tabs (an external JSON-producing AppleScript),
folds the snapshot into `windows` / `ui_letter_map`, updates the timers from
the polled front tab, renders, and dispatches at most one keystroke.

This file shallowly embeds that state and the pure content of each operation.
Python dictionaries are modelled as association lists with the usual
update-in-place-or-append assignment (`dictInsert`) and front-to-back lookup
(`dictGet?`); `time.time()` values are passed in explicitly as integers;
the external subprocess calls are modelled by the `Command` values the
program would issue; a raised-and-uncaught Python exception is modelled by
an explicit error constructor (`ManageResult.keyError`, `Outcome.crash`).
-/

set_option maxHeartbeats 1000000

/-- A `{title, url}` record as stored in the per-window lists (`tab_info`
in `main_loop`) and compared by `tab_exists_in_window`. -/
structure TabInfo where
  title : String
  url : String
deriving DecidableEq

/-- One element of the parsed snapshot `tabs_list`: the JSON objects produced
by `get_safari_tabs.scpt` carry a window id, a title and a url. -/
structure SnapTab where
  window : Nat
  title : String
  url : String
deriving DecidableEq

/-- The value stored in `ui_letter_map`: the snapshot tab dict augmented with
the `tab_num` field computed as `len(windows[window_id]) + 1` at assignment
time (`main_loop`, lines 428-433). -/
structure RegEntry where
  window : Nat
  title : String
  url : String
  tab_num : Nat
deriving DecidableEq

/-- The external AppleScript commands the program issues to Safari. -/
inductive Command where
  | activate (window_id tab_index : Nat)
  | close (window_id tab_index : Nat)
  | closeCurrent
  | reopen (url : String)
  | focusApp
deriving DecidableEq

/-- Python dict modelled as an association list (insertion order preserved). -/
abbrev Dict (α β : Type) := List (α × β)

/-- Python dict lookup `m[k]` / `k in m`: first matching key wins. -/
def dictGet? {α β : Type} [DecidableEq α] (k : α) : Dict α β → Option β
  | [] => none
  | (k', v) :: rest => if k' = k then some v else dictGet? k rest

/-- Python dict assignment `m[k] = v`: replace the existing binding in place,
or append a new one at the end. -/
def dictInsert {α β : Type} [DecidableEq α] (k : α) (v : β) : Dict α β → Dict α β
  | [] => [(k, v)]
  | (k', v') :: rest =>
    if k' = k then (k, v) :: rest else (k', v') :: dictInsert k v rest

/-- The global `windows` dictionary: window id to list of seen tabs. -/
abbrev Windows := Dict Nat (List TabInfo)

/-- The global `ui_letter_map` dictionary: letter to registry entry. -/
abbrev LetterMap := Dict Char RegEntry

/-- `windows[w]`, reading an absent key as the empty list (the code only ever
reads `windows[w]` after `if window_id not in windows: windows[window_id] = []`,
so the default is never observable). -/
def windowsGet (ws : Windows) (w : Nat) : List TabInfo :=
  (dictGet? w ws).getD []

/-- `if window_id not in windows: windows[window_id] = []` (`main_loop`,
lines 425-426). -/
def ensureWindow (w : Nat) (ws : Windows) : Windows :=
  if (dictGet? w ws).isSome then ws else dictInsert w [] ws

/-- Source `tab_exists_in_window` (lines 373-377): linear scan of the
window's seen-tab list comparing title and url. -/
def tab_exists_in_window : List TabInfo → TabInfo → Bool
  | [], _ => false
  | e :: rest, t =>
    if e.title = t.title ∧ e.url = t.url then true else tab_exists_in_window rest t

/-- `tab_letters = string.ascii_lowercase` (`main_loop`, line 419). -/
def tabLetters : List Char := "abcdefghijklmnopqrstuvwxyz".toList

/-- The registry-rebuild `for tab in tabs_list` loop of `main_loop`
(lines 421-437), folded over the snapshot.  `letter_index` starts at 0 each
cycle; a tab already recorded in its window's seen list is skipped; otherwise,
if a letter is left, the tab is assigned `tab_letters[letter_index]`
(overwriting whatever that letter mapped to) and appended to its window's
list; once the 26 letters are exhausted the loop `break`s, leaving the
remaining snapshot tabs unprocessed. -/
def rebuildAux (ws : Windows) (lm : LetterMap) (letter_index : Nat) :
    List SnapTab → Windows × LetterMap
  | [] => (ws, lm)
  | tab :: rest =>
    let ws1 := ensureWindow tab.window ws
    let tl := windowsGet ws1 tab.window
    let info : TabInfo := ⟨tab.title, tab.url⟩
    if tab_exists_in_window tl info then
      rebuildAux ws1 lm letter_index rest
    else if h : letter_index < tabLetters.length then
      rebuildAux (dictInsert tab.window (tl ++ [info]) ws1)
        (dictInsert (tabLetters.get ⟨letter_index, h⟩)
          ⟨tab.window, tab.title, tab.url, tl.length + 1⟩ lm)
        (letter_index + 1) rest
    else (ws1, lm)

/-- One cycle's registry rebuild: the loop of lines 421-437 entered with
`letter_index = 0`. -/
def registry_rebuild (ws : Windows) (lm : LetterMap) (tabs_list : List SnapTab) :
    Windows × LetterMap :=
  rebuildAux ws lm 0 tabs_list

/-- Successive polling cycles: the registry state threaded through a sequence
of snapshots (the globals are never reset between iterations of the
`while True` loop). -/
def run_rebuilds : Windows × LetterMap → List (List SnapTab) → Windows × LetterMap
  | p, [] => p
  | (ws, lm), s :: rest => run_rebuilds (registry_rebuild ws lm s) rest

/-- The full mutable global state of the program. -/
structure ProgState where
  closed_tabs_stack : List String
  tab_start_times : Dict String Int
  tab_active_times : Dict String Int
  windows : Windows
  ui_letter_map : LetterMap
deriving DecidableEq

/-- All five globals start empty (lines 55-60). -/
def initProgState : ProgState := ⟨[], [], [], [], []⟩

/-- `closed_tabs_stack.append(url)`: Python list append, used by both push
sites (`manage_safari_tab` close branch, `close_current_safari_tab`). -/
def stack_push (s : List String) (url : String) : List String := s ++ [url]

/-- Result of `manage_safari_tab`: either the mutated state together with the
AppleScript command issued, or the state at the moment the unguarded
`ui_letter_map[tab_letter]` lookup raises `KeyError` (line 155). -/
inductive ManageResult where
  | ok (st : ProgState) (cmd : Command)
  | keyError (st : ProgState)
deriving DecidableEq

/-- Source `manage_safari_tab` (lines 145-163).  For a select (lowercase)
press it first stamps `tab_start_times[tab_letter] = time.time()` — note the
key is the *letter*, not a url — then looks the letter up in `ui_letter_map`
(raising `KeyError` when absent), then either closes the target (pushing its
url onto the undo stack) or activates it. -/
def manage_safari_tab (st : ProgState) (tab_letter : Char) (close_tab : Bool)
    (now : Int) : ManageResult :=
  let st1 := if close_tab then st
    else { st with tab_start_times := dictInsert tab_letter.toString now st.tab_start_times }
  match dictGet? tab_letter st1.ui_letter_map with
  | none => ManageResult.keyError st1
  | some target =>
    if close_tab then
      ManageResult.ok
        { st1 with closed_tabs_stack := stack_push st1.closed_tabs_stack target.url }
        (Command.close target.window target.tab_num)
    else
      ManageResult.ok st1 (Command.activate target.window target.tab_num)

/-- Source `reopen_last_closed_tab` (lines 97-110): if the stack is nonempty,
pop the most recently pushed url and issue the reopen script; otherwise do
nothing. -/
def reopen_last_closed_tab (st : ProgState) : ProgState × Option Command :=
  match st.closed_tabs_stack.getLast? with
  | some url =>
    ({ st with closed_tabs_stack := st.closed_tabs_stack.dropLast },
      some (Command.reopen url))
  | none => (st, none)

/-- Source `close_current_safari_tab` (lines 112-131): fetch the front tab's
url (an external fact, `none` models empty script output), push it if present,
then issue the close-current-tab script. -/
def close_current_safari_tab (st : ProgState) (front_url : Option String) :
    ProgState × List Command :=
  match front_url with
  | some url =>
    ({ st with closed_tabs_stack := stack_push st.closed_tabs_stack url },
      [Command.closeCurrent])
  | none => (st, [Command.closeCurrent])

/-- The loop-local variables of `main_loop` that persist across iterations of
the `while True` loop: `activeTab` (initialised to empty title/url),
the `current_active_tab` binding (unbound before the first successful parse),
and the mode/display flags. -/
structure LoopLocals where
  activeTab : TabInfo
  lastParsedActive : Option TabInfo
  fSearchMode : Bool
  fShowFullTitle : Bool
  fShowTabTimeActive : Bool
deriving DecidableEq

/-- Initial loop locals (lines 390-395). -/
def initLoopLocals : LoopLocals := ⟨⟨"", ""⟩, none, false, false, false⟩

/-- The timer subprocedure of `main_loop` (lines 446-466).  If the polled
front tab differs from `activeTab`: when the previous active url has a start
time, fold `now - start` into its accumulated active time (the start-time
entry is NOT removed); then set `activeTab` to the new tab and stamp the new
url's start time. -/
def observeStep (st : ProgState) (locals : LoopLocals) (current : TabInfo)
    (now : Int) : ProgState × LoopLocals :=
  if current = locals.activeTab then (st, locals)
  else
    let st1 :=
      match dictGet? locals.activeTab.url st.tab_start_times with
      | some start =>
        let duration_active := now - start
        { st with tab_active_times :=
            match dictGet? locals.activeTab.url st.tab_active_times with
            | some acc =>
              dictInsert locals.activeTab.url (acc + duration_active) st.tab_active_times
            | none => dictInsert locals.activeTab.url duration_active st.tab_active_times }
      | none => st
    ({ st1 with tab_start_times := dictInsert current.url now st1.tab_start_times },
      { locals with activeTab := current })

/-- The per-tab elapsed-time figure computed by `ui_show_tabs` when
`show_times` is on (lines 262-270): start from 0, add `now - start` whenever
the url has a start-time entry, then add the accumulated active time if
any. -/
def ui_elapsed_seconds (st : ProgState) (url : String) (current_time : Int) : Int :=
  let base : Int :=
    match dictGet? url st.tab_start_times with
    | some start => current_time - start
    | none => 0
  match dictGet? url st.tab_active_times with
  | some acc => base + acc
  | none => base

/-- Result of one browsing-mode loop iteration: an uncaught exception escapes
`main_loop` and ends the program (`crash`), or the loop continues with the
updated state, locals, and the external commands issued this iteration. -/
inductive Outcome where
  | crash
  | next (st : ProgState) (locals : LoopLocals) (cmds : List Command)
deriving DecidableEq

/-- The keystroke dispatch of `main_loop` (lines 484-502), by raw character
code.  Note `q` (113) falls in the 97-122 range, so the first dispatch treats
it as a tab-select; the dedicated quit test on this read is dead code (the
loop's separate second `getch` handles quitting). -/
def dispatchKey (st : ProgState) (locals : LoopLocals) (ch : Nat) (now : Int)
    (front_url : Option String) : Outcome :=
  if ch = 46 then
    Outcome.next st { locals with fShowFullTitle := !locals.fShowFullTitle } []
  else if 97 ≤ ch ∧ ch ≤ 122 then
    match manage_safari_tab st (Char.ofNat ch) false now with
    | ManageResult.ok st' cmd => Outcome.next st' locals [cmd]
    | ManageResult.keyError _ => Outcome.crash
  else if 65 ≤ ch ∧ ch ≤ 90 then
    match manage_safari_tab st (Char.ofNat (ch + 32)) true now with
    | ManageResult.ok st' cmd => Outcome.next st' locals [cmd]
    | ManageResult.keyError _ => Outcome.crash
  else if ch = 47 then Outcome.next st locals [Command.focusApp]
  else if ch = 39 then
    let r := close_current_safari_tab st front_url
    Outcome.next r.1 locals r.2
  else if ch = 59 then
    let r := reopen_last_closed_tab st
    Outcome.next r.1 locals r.2.toList
  else if ch = 44 then
    Outcome.next st { locals with fSearchMode := true } []
  else if ch = 91 then
    Outcome.next st { locals with fShowTabTimeActive := !locals.fShowTabTimeActive } []
  else Outcome.next st locals []

/-- One iteration of the browsing branch of `main_loop` (lines 406-502).
`snapRaw` is the fetched-and-parsed snapshot (`json.loads(result)`, line 414 —
not inside any `try`, so a parse failure is an uncaught `JSONDecodeError`);
`activeRaw` the parsed front tab (its parse failure IS caught, after which the
code falls through to use the previous iteration's `current_active_tab`
binding, a `NameError` crash when no iteration has parsed one yet); `key` the
at-most-one keystroke read; `front_url` the front tab url the close-current
script would fetch. -/
def browsingStep (st : ProgState) (locals : LoopLocals)
    (snapRaw : Except Unit (List SnapTab)) (activeRaw : Except Unit TabInfo)
    (key : Option Nat) (now : Int) (front_url : Option String) : Outcome :=
  match snapRaw with
  | Except.error _ => Outcome.crash
  | Except.ok tabs_list =>
    let p := registry_rebuild st.windows st.ui_letter_map tabs_list
    let st1 := { st with windows := p.1, ui_letter_map := p.2 }
    match
      (match activeRaw with
       | Except.ok t => some (t, { locals with lastParsedActive := some t })
       | Except.error _ => locals.lastParsedActive.map (fun t => (t, locals))) with
    | none => Outcome.crash
    | some (current, locals1) =>
      let r := observeStep st1 locals1 current now
      match key with
      | none => Outcome.next r.1 r.2 []
      | some ch => dispatchKey r.1 r.2 ch now front_url

/-- Identity triple of a snapshot tab: `(window_id, title, url)`. -/
def tripleOf (t : SnapTab) : Nat × String × String := (t.window, t.title, t.url)

/-- Identity triple of a registry entry. -/
def tripleOfEntry (e : RegEntry) : Nat × String × String := (e.window, e.title, e.url)

/-- Invariant: every entry of the letter map is recorded in its window's
seen-tab list. -/
def RegistryInv (ws : Windows) (lm : LetterMap) : Prop :=
  ∀ c e, dictGet? c lm = some e →
    tab_exists_in_window (windowsGet ws e.window) ⟨e.title, e.url⟩ = true

/-- Invariant: no identity triple is held by two different letters. -/
def letterInjOnTriples (lm : LetterMap) : Prop :=
  ∀ c c' e e', dictGet? c lm = some e → dictGet? c' lm = some e' →
    tripleOfEntry e = tripleOfEntry e' → c = c'

/-- 26 pairwise-distinct urls used in the overflow scenarios. -/
def overflowUrls : List String :=
  ["ya", "yb", "yc", "yd", "ye", "yf", "yg", "yh", "yi", "yj", "yk", "yl", "ym",
   "yn", "yo", "yp", "yq", "yr", "ys", "yt", "yu", "yv", "yw", "yx", "yy", "yz"]

/-- A 27-identity snapshot: a previously seen tab followed by 26 unseen tabs,
all in window 1. -/
def overflowSnap : List SnapTab :=
  ⟨1, "X", "x.com"⟩ :: overflowUrls.map (fun u => SnapTab.mk 1 "Y" u)

/-- 30 pairwise-distinct urls for the 30-tab overflow scenario. -/
def wideUrls : List String :=
  ["t01", "t02", "t03", "t04", "t05", "t06", "t07", "t08", "t09", "t10",
   "t11", "t12", "t13", "t14", "t15", "t16", "t17", "t18", "t19", "t20",
   "t21", "t22", "t23", "t24", "t25", "t26", "t27", "t28", "t29", "t30"]

/-- A snapshot of 30 distinct tab identities in one window. -/
def wideSnap : List SnapTab := wideUrls.map (fun u => SnapTab.mk 1 "T" u)

/-! ### Dictionary lemmas -/

theorem dictGet?_insert {α β : Type} [DecidableEq α] (k k' : α) (v : β) (m : Dict α β) :
    dictGet? k (dictInsert k' v m) = if k' = k then some v else dictGet? k m := by
  induction m with
  | nil => simp [dictGet?, dictInsert]
  | cons hd tl ih =>
    obtain ⟨k0, v0⟩ := hd
    by_cases h0 : k0 = k'
    · subst h0
      simp only [dictInsert, if_pos rfl, dictGet?]
      by_cases h1 : k0 = k <;> simp [h1]
    · simp only [dictInsert, if_neg h0, dictGet?]
      by_cases h1 : k0 = k
      · subst h1
        have : ¬ k' = k0 := fun h => h0 h.symm
        simp [this]
      · simp [h1, ih]

theorem dictGet?_insert_self {α β : Type} [DecidableEq α] (k : α) (v : β) (m : Dict α β) :
    dictGet? k (dictInsert k v m) = some v := by
  simp [dictGet?_insert]

theorem dictGet?_insert_ne {α β : Type} [DecidableEq α] {k k' : α} (v : β) (m : Dict α β)
    (h : k' ≠ k) : dictGet? k (dictInsert k' v m) = dictGet? k m := by
  simp [dictGet?_insert, h]

theorem dictGet?_insert_isSome {α β : Type} [DecidableEq α] (k k' : α) (v : β)
    (m : Dict α β) (h : (dictGet? k m).isSome = true) :
    (dictGet? k (dictInsert k' v m)).isSome = true := by
  rw [dictGet?_insert]
  by_cases h1 : k' = k <;> simp [h1, h]

/-! ### Windows lemmas -/

theorem windowsGet_ensure (w w' : Nat) (ws : Windows) :
    windowsGet (ensureWindow w ws) w' = windowsGet ws w' := by
  unfold ensureWindow
  by_cases hs : (dictGet? w ws).isSome = true
  · simp [hs]
  · simp only [hs, if_false, Bool.false_eq_true]
    unfold windowsGet
    rw [dictGet?_insert]
    by_cases hw : w = w'
    · subst hw
      rw [Option.not_isSome_iff_eq_none] at hs
      simp [hs]
    · simp [hw]

theorem windowsGet_insert_self (w : Nat) (l : List TabInfo) (ws : Windows) :
    windowsGet (dictInsert w l ws) w = l := by
  unfold windowsGet
  simp [dictGet?_insert]

theorem windowsGet_insert_ne {w w' : Nat} (l : List TabInfo) (ws : Windows)
    (h : w ≠ w') : windowsGet (dictInsert w l ws) w' = windowsGet ws w' := by
  unfold windowsGet
  rw [dictGet?_insert_ne _ _ h]

/-! ### `tab_exists_in_window` lemmas -/

theorem tab_exists_append (l1 l2 : List TabInfo) (t : TabInfo) :
    tab_exists_in_window (l1 ++ l2) t =
      (tab_exists_in_window l1 t || tab_exists_in_window l2 t) := by
  induction l1 with
  | nil => simp [tab_exists_in_window]
  | cons e rest ih =>
    simp only [List.cons_append, tab_exists_in_window]
    by_cases h : e.title = t.title ∧ e.url = t.url <;> simp [h, ih]

theorem tab_exists_of_mem {l : List TabInfo} {t : TabInfo} (h : t ∈ l) :
    tab_exists_in_window l t = true := by
  induction l with
  | nil => cases h
  | cons e rest ih =>
    rcases List.mem_cons.mp h with h1 | h1
    · subst h1
      simp [tab_exists_in_window]
    · simp only [tab_exists_in_window]
      by_cases h2 : e.title = t.title ∧ e.url = t.url <;> simp [h2, ih h1]

/-! ### Letter-table facts -/

theorem tabLetters_length : tabLetters.length = 26 := rfl

theorem tabLetters_get?_ne :
    ∀ i, i < 26 → ∀ j, j < 26 → i ≠ j → tabLetters.get? i ≠ tabLetters.get? j := by
  decide

/-! ### Rebuild step lemmas -/

theorem rebuildAux_nil (ws : Windows) (lm : LetterMap) (idx : Nat) :
    rebuildAux ws lm idx [] = (ws, lm) := rfl

theorem rebuildAux_cons_skip (ws : Windows) (lm : LetterMap) (idx : Nat)
    (tab : SnapTab) (rest : List SnapTab)
    (hex : tab_exists_in_window (windowsGet ws tab.window) ⟨tab.title, tab.url⟩ = true) :
    rebuildAux ws lm idx (tab :: rest) =
      rebuildAux (ensureWindow tab.window ws) lm idx rest := by
  simp [rebuildAux, windowsGet_ensure, hex]

theorem rebuildAux_cons_new (ws : Windows) (lm : LetterMap) (idx : Nat)
    (tab : SnapTab) (rest : List SnapTab)
    (hex : tab_exists_in_window (windowsGet ws tab.window) ⟨tab.title, tab.url⟩ = false)
    (h : idx < tabLetters.length) :
    rebuildAux ws lm idx (tab :: rest) =
      rebuildAux
        (dictInsert tab.window (windowsGet ws tab.window ++ [⟨tab.title, tab.url⟩])
          (ensureWindow tab.window ws))
        (dictInsert (tabLetters.get ⟨idx, h⟩)
          ⟨tab.window, tab.title, tab.url, (windowsGet ws tab.window).length + 1⟩ lm)
        (idx + 1) rest := by
  simp [rebuildAux, windowsGet_ensure, hex, h]

theorem rebuildAux_cons_full (ws : Windows) (lm : LetterMap) (idx : Nat)
    (tab : SnapTab) (rest : List SnapTab)
    (hex : tab_exists_in_window (windowsGet ws tab.window) ⟨tab.title, tab.url⟩ = false)
    (h : ¬ idx < tabLetters.length) :
    rebuildAux ws lm idx (tab :: rest) = (ensureWindow tab.window ws, lm) := by
  simp [rebuildAux, windowsGet_ensure, hex, h]

/-! ### Growth of the registries (no cycle removes anything) -/

theorem rebuildAux_windows_grow (S : List SnapTab) :
    ∀ (ws : Windows) (lm : LetterMap) (idx : Nat) (w : Nat),
    ∃ l2, windowsGet (rebuildAux ws lm idx S).1 w = windowsGet ws w ++ l2 := by
  induction S with
  | nil => intro ws lm idx w; exact ⟨[], by simp [rebuildAux_nil]⟩
  | cons tab rest ih =>
    intro ws lm idx w
    by_cases hex :
        tab_exists_in_window (windowsGet ws tab.window) ⟨tab.title, tab.url⟩ = true
    · rw [rebuildAux_cons_skip ws lm idx tab rest hex]
      obtain ⟨l2, hl2⟩ := ih (ensureWindow tab.window ws) lm idx w
      exact ⟨l2, by rw [hl2, windowsGet_ensure]⟩
    · rw [Bool.not_eq_true] at hex
      by_cases h : idx < tabLetters.length
      · rw [rebuildAux_cons_new ws lm idx tab rest hex h]
        obtain ⟨l2, hl2⟩ := ih _ _ (idx + 1) w
        rw [hl2]
        by_cases hw : tab.window = w
        · subst hw
          rw [windowsGet_insert_self]
          exact ⟨[⟨tab.title, tab.url⟩] ++ l2, by simp⟩
        · rw [windowsGet_insert_ne _ _ hw, windowsGet_ensure]
          exact ⟨l2, rfl⟩
      · rw [rebuildAux_cons_full ws lm idx tab rest hex h]
        exact ⟨[], by rw [windowsGet_ensure, List.append_nil]⟩

theorem rebuildAux_lmap_isSome (S : List SnapTab) :
    ∀ (ws : Windows) (lm : LetterMap) (idx : Nat) (c : Char),
    (dictGet? c lm).isSome = true →
    (dictGet? c (rebuildAux ws lm idx S).2).isSome = true := by
  induction S with
  | nil => intro ws lm idx c h; simpa [rebuildAux_nil] using h
  | cons tab rest ih =>
    intro ws lm idx c h
    by_cases hex :
        tab_exists_in_window (windowsGet ws tab.window) ⟨tab.title, tab.url⟩ = true
    · rw [rebuildAux_cons_skip ws lm idx tab rest hex]
      exact ih _ _ _ _ h
    · rw [Bool.not_eq_true] at hex
      by_cases hlt : idx < tabLetters.length
      · rw [rebuildAux_cons_new ws lm idx tab rest hex hlt]
        exact ih _ _ _ _ (dictGet?_insert_isSome _ _ _ _ h)
      · rw [rebuildAux_cons_full ws lm idx tab rest hex hlt]
        exact h

/-! ### Letters below the running index are never touched -/

theorem rebuildAux_lookup_below (S : List SnapTab) :
    ∀ (ws : Windows) (lm : LetterMap) (idx j : Nat) (c : Char),
    j < idx → tabLetters.get? j = some c →
    dictGet? c (rebuildAux ws lm idx S).2 = dictGet? c lm := by
  induction S with
  | nil => intro ws lm idx j c _ _; rw [rebuildAux_nil]
  | cons tab rest ih =>
    intro ws lm idx j c hj hc
    by_cases hex :
        tab_exists_in_window (windowsGet ws tab.window) ⟨tab.title, tab.url⟩ = true
    · rw [rebuildAux_cons_skip ws lm idx tab rest hex]
      exact ih _ _ _ _ _ hj hc
    · rw [Bool.not_eq_true] at hex
      by_cases hlt : idx < tabLetters.length
      · rw [rebuildAux_cons_new ws lm idx tab rest hex hlt]
        rw [ih _ _ _ _ _ (Nat.lt_succ_of_lt hj) hc]
        have hj26 : j < 26 := lt_of_lt_of_le hj (le_of_lt (by simpa [tabLetters_length] using hlt))
        have hne : tabLetters.get? j ≠ tabLetters.get? idx :=
          tabLetters_get?_ne j hj26 idx (by simpa [tabLetters_length] using hlt)
            (Nat.ne_of_lt hj)
        have hgi : tabLetters.get? idx = some (tabLetters.get ⟨idx, hlt⟩) :=
          List.get?_eq_get hlt
        have hcne : tabLetters.get ⟨idx, hlt⟩ ≠ c := by
          intro hcontra
          apply hne
          rw [hc, hgi, hcontra]
        rw [dictGet?_insert_ne _ _ hcne]
      · rw [rebuildAux_cons_full ws lm idx tab rest hex hlt]

/-! ### A snapshot with no unseen tab leaves the letter map untouched -/

theorem rebuildAux_all_seen (S : List SnapTab) :
    ∀ (ws : Windows) (lm : LetterMap) (idx : Nat),
    (∀ t ∈ S, tab_exists_in_window (windowsGet ws t.window) ⟨t.title, t.url⟩ = true) →
    (rebuildAux ws lm idx S).2 = lm := by
  induction S with
  | nil => intro ws lm idx _; rw [rebuildAux_nil]
  | cons tab rest ih =>
    intro ws lm idx hall
    have hex := hall tab (List.mem_cons_self tab rest)
    rw [rebuildAux_cons_skip ws lm idx tab rest hex]
    exact ih _ _ _ (fun t ht => by
      rw [windowsGet_ensure]
      exact hall t (List.mem_cons_of_mem tab ht))

/-! ### The first unseen tab of a snapshot is assigned the letter at the
running index, regardless of which letters are currently in use -/

theorem rebuildAux_first_new (S : List SnapTab) :
    ∀ (ws : Windows) (lm : LetterMap) (idx : Nat) (c : Char) (t : SnapTab),
    tabLetters.get? idx = some c →
    S.find? (fun x => !tab_exists_in_window (windowsGet ws x.window) ⟨x.title, x.url⟩) =
      some t →
    dictGet? c (rebuildAux ws lm idx S).2 =
      some ⟨t.window, t.title, t.url, (windowsGet ws t.window).length + 1⟩ := by
  induction S with
  | nil => intro ws lm idx c t _ hfind; simp [List.find?] at hfind
  | cons x rest ih =>
    intro ws lm idx c t hc hfind
    have hlt : idx < tabLetters.length := by
      by_contra hge
      rw [List.get?_eq_none.mpr (Nat.le_of_not_lt hge)] at hc
      exact Option.noConfusion hc
    by_cases hpx :
        tab_exists_in_window (windowsGet ws x.window) ⟨x.title, x.url⟩ = true
    · rw [List.find?_cons_of_neg _ (by simp [hpx])] at hfind
      rw [rebuildAux_cons_skip ws lm idx x rest hpx]
      have hpred :
          (fun y : SnapTab => !tab_exists_in_window
              (windowsGet (ensureWindow x.window ws) y.window) ⟨y.title, y.url⟩) =
          (fun y : SnapTab => !tab_exists_in_window
              (windowsGet ws y.window) ⟨y.title, y.url⟩) :=
        funext fun y => by rw [windowsGet_ensure]
      have := ih (ensureWindow x.window ws) lm idx c t hc (by rw [hpred]; exact hfind)
      rw [this, windowsGet_ensure]
    · rw [Bool.not_eq_true] at hpx
      rw [List.find?_cons_of_pos _ (by simp [hpx])] at hfind
      injection hfind with ht
      subst ht
      rw [rebuildAux_cons_new ws lm idx x rest hpx hlt]
      rw [rebuildAux_lookup_below rest _ _ (idx + 1) idx c (Nat.lt_succ_self idx) hc]
      have hcg : tabLetters.get ⟨idx, hlt⟩ = c := by
        have := List.get?_eq_get hlt
        rw [hc] at this
        exact (Option.some.injEq _ _).mp this.symm
      rw [hcg, dictGet?_insert_self]

/-! ### Fresh-snapshot lemmas (every tab unseen, identities pairwise distinct) -/

theorem fresh_after_insert {x : SnapTab} {rest : List SnapTab} {ws : Windows}
    (hfr : ∀ t ∈ x :: rest,
      tab_exists_in_window (windowsGet ws t.window) ⟨t.title, t.url⟩ = false)
    (hnd : ((x :: rest).map tripleOf).Nodup) :
    ∀ t ∈ rest,
      tab_exists_in_window
        (windowsGet
          (dictInsert x.window (windowsGet ws x.window ++ [⟨x.title, x.url⟩])
            (ensureWindow x.window ws)) t.window)
        ⟨t.title, t.url⟩ = false := by
  intro t ht
  by_cases hw : x.window = t.window
  · rw [← hw, windowsGet_insert_self, tab_exists_append]
    have h1 : tab_exists_in_window (windowsGet ws x.window) ⟨t.title, t.url⟩ = false := by
      rw [hw]
      exact hfr t (List.mem_cons_of_mem x ht)
    have hne : tripleOf t ≠ tripleOf x := by
      rw [List.map_cons, List.nodup_cons] at hnd
      intro hcontra
      exact hnd.1 (hcontra ▸ List.mem_map_of_mem tripleOf ht)
    have h2 : tab_exists_in_window [⟨x.title, x.url⟩] ⟨t.title, t.url⟩ = false := by
      simp only [tab_exists_in_window]
      by_cases hcond : (⟨x.title, x.url⟩ : TabInfo).title = t.title ∧
          (⟨x.title, x.url⟩ : TabInfo).url = t.url
      · exfalso
        apply hne
        simp only [tripleOf]
        simp only at hcond
        rw [hcond.1, hcond.2, hw]
      · simp [hcond]
    rw [h1, h2]
    rfl
  · rw [windowsGet_insert_ne _ _ hw, windowsGet_ensure]
    exact hfr t (List.mem_cons_of_mem x ht)

theorem rebuildAux_fresh_assign (S : List SnapTab) :
    ∀ (ws : Windows) (lm : LetterMap) (idx i : Nat) (c : Char) (x : SnapTab),
    (∀ t ∈ S, tab_exists_in_window (windowsGet ws t.window) ⟨t.title, t.url⟩ = false) →
    (S.map tripleOf).Nodup →
    tabLetters.get? (idx + i) = some c →
    S.get? i = some x →
    (dictGet? c (rebuildAux ws lm idx S).2).map tripleOfEntry = some (tripleOf x) := by
  induction S with
  | nil => intro ws lm idx i c x _ _ _ hx; simp at hx
  | cons x0 rest ih =>
    intro ws lm idx i c x hfr hnd hc hx
    have hex := hfr x0 (List.mem_cons_self x0 rest)
    have hlt : idx < tabLetters.length := by
      by_contra hge
      have : tabLetters.length ≤ idx + i := le_trans (Nat.le_of_not_lt hge) (Nat.le_add_right _ _)
      rw [List.get?_eq_none.mpr this] at hc
      exact Option.noConfusion hc
    rw [rebuildAux_cons_new ws lm idx x0 rest hex hlt]
    cases i with
    | zero =>
      simp only [List.get?] at hx
      injection hx with hx0
      subst hx0
      rw [rebuildAux_lookup_below rest _ _ (idx + 1) idx c (Nat.lt_succ_self idx)
        (by simpa using hc)]
      have hcg : tabLetters.get ⟨idx, hlt⟩ = c := by
        have := List.get?_eq_get hlt
        rw [show tabLetters.get? idx = some c by simpa using hc] at this
        exact (Option.some.injEq _ _).mp this.symm
      rw [hcg, dictGet?_insert_self]
      simp [tripleOfEntry, tripleOf]
    | succ j =>
      have hc' : tabLetters.get? ((idx + 1) + j) = some c := by
        rw [show (idx + 1) + j = idx + (j + 1) by omega]
        exact hc
      have hx' : rest.get? j = some x := by simpa using hx
      have hnd' : (rest.map tripleOf).Nodup := by
        rw [List.map_cons, List.nodup_cons] at hnd
        exact hnd.2
      exact ih _ _ (idx + 1) j c x (fresh_after_insert hfr hnd) hnd' hc' hx'

theorem rebuildAux_fresh_range (S : List SnapTab) :
    ∀ (ws : Windows) (lm : LetterMap) (idx : Nat) (c : Char) (e : RegEntry),
    (∀ t ∈ S, tab_exists_in_window (windowsGet ws t.window) ⟨t.title, t.url⟩ = false) →
    (S.map tripleOf).Nodup →
    dictGet? c (rebuildAux ws lm idx S).2 = some e →
    dictGet? c lm = some e ∨
      ∃ j x, S.get? j = some x ∧ idx + j < tabLetters.length ∧
        tripleOfEntry e = tripleOf x := by
  induction S with
  | nil => intro ws lm idx c e _ _ h; rw [rebuildAux_nil] at h; exact Or.inl h
  | cons x0 rest ih =>
    intro ws lm idx c e hfr hnd hlook
    have hex := hfr x0 (List.mem_cons_self x0 rest)
    by_cases hlt : idx < tabLetters.length
    · rw [rebuildAux_cons_new ws lm idx x0 rest hex hlt] at hlook
      have hnd' : (rest.map tripleOf).Nodup := by
        rw [List.map_cons, List.nodup_cons] at hnd
        exact hnd.2
      rcases ih _ _ (idx + 1) c e (fresh_after_insert hfr hnd) hnd' hlook with h1 | h1
      · rw [dictGet?_insert] at h1
        by_cases hck : tabLetters.get ⟨idx, hlt⟩ = c
        · rw [if_pos hck] at h1
          refine Or.inr ⟨0, x0, by simp, by simpa using hlt, ?_⟩
          injection h1 with he
          rw [← he]
          simp [tripleOfEntry, tripleOf]
        · rw [if_neg hck] at h1
          exact Or.inl h1
      · obtain ⟨j, x, hj, hjlt, he⟩ := h1
        exact Or.inr ⟨j + 1, x, by simpa using hj, by omega, he⟩
    · rw [rebuildAux_cons_full ws lm idx x0 rest hex hlt] at hlook
      exact Or.inl hlook

/-! ### Registry invariants: every mapped entry is recorded in its window's
seen list, and no identity triple holds two letters -/

theorem registryInv_ensure {ws : Windows} {lm : LetterMap} (w : Nat)
    (h : RegistryInv ws lm) : RegistryInv (ensureWindow w ws) lm := by
  intro c e hce
  rw [windowsGet_ensure]
  exact h c e hce

theorem rebuildAux_preserves_inv (S : List SnapTab) :
    ∀ (ws : Windows) (lm : LetterMap) (idx : Nat),
    RegistryInv ws lm → letterInjOnTriples lm →
    RegistryInv (rebuildAux ws lm idx S).1 (rebuildAux ws lm idx S).2 ∧
      letterInjOnTriples (rebuildAux ws lm idx S).2 := by
  induction S with
  | nil => intro ws lm idx h1 h2; rw [rebuildAux_nil]; exact ⟨h1, h2⟩
  | cons tab rest ih =>
    intro ws lm idx h1 h2
    by_cases hex :
        tab_exists_in_window (windowsGet ws tab.window) ⟨tab.title, tab.url⟩ = true
    · rw [rebuildAux_cons_skip ws lm idx tab rest hex]
      exact ih _ _ _ (registryInv_ensure tab.window h1) h2
    · rw [Bool.not_eq_true] at hex
      by_cases hlt : idx < tabLetters.length
      · rw [rebuildAux_cons_new ws lm idx tab rest hex hlt]
        apply ih
        · -- RegistryInv after the paired insert into windows and letter map
          intro c e hce
          rw [dictGet?_insert] at hce
          by_cases hck : tabLetters.get ⟨idx, hlt⟩ = c
          · rw [if_pos hck] at hce
            injection hce with he
            subst he
            simp only
            rw [windowsGet_insert_self, tab_exists_append]
            have : tab_exists_in_window [⟨tab.title, tab.url⟩] ⟨tab.title, tab.url⟩ = true := by
              simp [tab_exists_in_window]
            rw [this, Bool.or_true]
          · rw [if_neg hck] at hce
            have hold := h1 c e hce
            by_cases hw : tab.window = e.window
            · rw [← hw] at hold ⊢
              rw [windowsGet_insert_self, tab_exists_append, hold, Bool.true_or]
            · rw [windowsGet_insert_ne _ _ hw, windowsGet_ensure]
              exact hold
        · -- letterInjOnTriples after the insert
          intro c c' e e' hce hce' htr
          rw [dictGet?_insert] at hce hce'
          by_cases hck : tabLetters.get ⟨idx, hlt⟩ = c
          · by_cases hck' : tabLetters.get ⟨idx, hlt⟩ = c'
            · rw [← hck, ← hck']
            · exfalso
              rw [if_pos hck] at hce
              rw [if_neg hck'] at hce'
              injection hce with he
              subst he
              have hold := h1 c' e' hce'
              have hwin : e'.window = tab.window := by
                have := congrArg Prod.fst htr
                simpa [tripleOfEntry] using this.symm
              have hti : (⟨e'.title, e'.url⟩ : TabInfo) = ⟨tab.title, tab.url⟩ := by
                have h2nd := congrArg (fun p => p.2.1) htr
                have h3rd := congrArg (fun p => p.2.2) htr
                simp only [tripleOfEntry] at h2nd h3rd
                rw [TabInfo.mk.injEq]
                exact ⟨h2nd.symm, h3rd.symm⟩
              rw [hwin, hti] at hold
              rw [hold] at hex
              exact Bool.noConfusion hex
          · by_cases hck' : tabLetters.get ⟨idx, hlt⟩ = c'
            · exfalso
              rw [if_neg hck] at hce
              rw [if_pos hck'] at hce'
              injection hce' with he
              subst he
              have hold := h1 c e hce
              have hwin : e.window = tab.window := by
                have := congrArg Prod.fst htr
                simpa [tripleOfEntry] using this
              have hti : (⟨e.title, e.url⟩ : TabInfo) = ⟨tab.title, tab.url⟩ := by
                have h2nd := congrArg (fun p => p.2.1) htr
                have h3rd := congrArg (fun p => p.2.2) htr
                simp only [tripleOfEntry] at h2nd h3rd
                rw [TabInfo.mk.injEq]
                exact ⟨h2nd, h3rd⟩
              rw [hwin, hti] at hold
              rw [hold] at hex
              exact Bool.noConfusion hex
            · rw [if_neg hck] at hce
              rw [if_neg hck'] at hce'
              exact h2 c c' e e' hce hce' htr
      · rw [rebuildAux_cons_full ws lm idx tab rest hex hlt]
        exact ⟨registryInv_ensure tab.window h1, h2⟩

theorem run_rebuilds_inv (snaps : List (List SnapTab)) :
    ∀ (ws : Windows) (lm : LetterMap),
    RegistryInv ws lm → letterInjOnTriples lm →
    RegistryInv (run_rebuilds (ws, lm) snaps).1 (run_rebuilds (ws, lm) snaps).2 ∧
      letterInjOnTriples (run_rebuilds (ws, lm) snaps).2 := by
  induction snaps with
  | nil => intro ws lm h1 h2; exact ⟨h1, h2⟩
  | cons s rest ih =>
    intro ws lm h1 h2
    have hstep := rebuildAux_preserves_inv s ws lm 0 h1 h2
    have : run_rebuilds (ws, lm) (s :: rest) =
        run_rebuilds ((registry_rebuild ws lm s).1, (registry_rebuild ws lm s).2) rest := by
      simp [run_rebuilds]
    rw [this]
    exact ih _ _ hstep.1 hstep.2

/-! ## Claim theorems -/

/-- C1 counterexample.  The claim "every identity assigned a letter from S1
that still appears in S2 keeps its letter" is false: with S1 = [X] the tab X
is assigned letter a; on S2 = [X, Y] the tab X is still present, but
`letter_index` restarts at 0 and the skipped X does not advance it, so the
newly appeared Y is assigned letter a, overwriting X's entry — resolving a
now yields Y, not X. -/
theorem C1_letter_stability_counterexample :
    dictGet? 'a' (registry_rebuild [] [] [⟨1, "X", "x.com"⟩]).2 =
      some ⟨1, "X", "x.com", 1⟩ ∧
    (⟨1, "X", "x.com"⟩ : SnapTab) ∈
      [(⟨1, "X", "x.com"⟩ : SnapTab), ⟨1, "Y", "y.com"⟩] ∧
    dictGet? 'a' (run_rebuilds ([], [])
      [[⟨1, "X", "x.com"⟩], [⟨1, "X", "x.com"⟩, ⟨1, "Y", "y.com"⟩]]).2 =
      some ⟨1, "Y", "y.com", 2⟩ ∧
    (⟨1, "Y", "y.com", 2⟩ : RegEntry) ≠ ⟨1, "X", "x.com", 1⟩ := by
  decide

/-- C1 (amended): letter stability holds exactly when the new snapshot
introduces no unseen identity — if every tab of S2 is already recorded in its
window's seen list, the rebuild leaves the letter map completely unchanged,
so every previously assigned identity keeps its previous letter; an unseen
identity, by contrast, is assigned letters counted from a and may take over
a still-present identity's letter. -/
theorem C1_letter_stability_amended (ws : Windows) (lm : LetterMap)
    (S : List SnapTab)
    (h : ∀ t ∈ S, tab_exists_in_window (windowsGet ws t.window) ⟨t.title, t.url⟩ = true) :
    (registry_rebuild ws lm S).2 = lm :=
  rebuildAux_all_seen S ws lm 0 h

/-- Witness for C1: a state that has seen tab X, rebuilt on the snapshot
[X], keeps its letter map. -/
theorem C1_letter_stability_witness :
    (registry_rebuild [(1, [⟨"X", "x.com"⟩])] [('a', ⟨1, "X", "x.com", 1⟩)]
      [⟨1, "X", "x.com"⟩]).2 = [('a', ⟨1, "X", "x.com", 1⟩)] :=
  C1_letter_stability_amended [(1, [⟨"X", "x.com"⟩])] [('a', ⟨1, "X", "x.com", 1⟩)]
    [⟨1, "X", "x.com"⟩] (by decide)

/-- C2 counterexample.  Pressing a letter with no current registry entry is
claimed to be a state-preserving no-op that raises no error; in fact
`manage_safari_tab` stamps `tab_start_times[letter]` and then raises
`KeyError` on the unguarded `ui_letter_map[tab_letter]` lookup: here pressing
lowercase z from the initial state both mutates the state and raises. -/
theorem C2_stale_letter_counterexample :
    manage_safari_tab initProgState 'z' false 7 =
      ManageResult.keyError
        { initProgState with tab_start_times := [("z", 7)] } ∧
    ({ initProgState with tab_start_times := [("z", 7)] } : ProgState) ≠
      initProgState := by
  decide

/-- C2 (amended): pressing a letter with no current registry entry raises an
uncaught `KeyError` rather than being silently ignored — for an activate
(lowercase) press after first stamping `tab_start_times` under the letter's
own key, for a close (uppercase) press with the state unchanged at the point
of the raise. -/
theorem C2_stale_letter_amended (st : ProgState) (ch : Char) (now : Int)
    (h : dictGet? ch st.ui_letter_map = none) :
    manage_safari_tab st ch false now =
      ManageResult.keyError
        { st with tab_start_times := dictInsert (Char.toString ch) now st.tab_start_times } ∧
    manage_safari_tab st ch true now = ManageResult.keyError st := by
  constructor
  · simp [manage_safari_tab, h]
  · simp [manage_safari_tab, h]

/-- Witness for C2: pressing q (unassigned) in the initial state. -/
theorem C2_stale_letter_witness :
    manage_safari_tab initProgState 'q' false 3 =
      ManageResult.keyError
        { initProgState with
            tab_start_times := dictInsert (Char.toString 'q') 3 initProgState.tab_start_times } ∧
    manage_safari_tab initProgState 'q' true 3 = ManageResult.keyError initProgState :=
  C2_stale_letter_amended initProgState 'q' 3 (by decide)

/-- C3 counterexample.  The claim says a failed/unparseable snapshot fetch
renders an error state and the loop continues; in fact `json.loads(result)`
(line 414) is outside every `try`, so the `JSONDecodeError` is uncaught and
the program terminates: the iteration ends in a crash, not a rendered error
state with retained registries. -/
theorem C3_snapshot_failure_counterexample :
    browsingStep initProgState initLoopLocals (Except.error ())
      (Except.ok ⟨"T", "t.com"⟩) none 0 none = Outcome.crash := by
  rfl

/-- C3 (amended): for every iteration in which the snapshot fetch fails or
its output cannot be parsed, the uncaught parse exception terminates the
loop; the registry rebuild, tracker update and dispatch indeed do not run
that iteration, but no error state is rendered and the loop does not
continue. -/
theorem C3_snapshot_failure_amended (st : ProgState) (locals : LoopLocals)
    (activeRaw : Except Unit TabInfo) (key : Option Nat) (now : Int)
    (front_url : Option String) :
    browsingStep st locals (Except.error ()) activeRaw key now front_url =
      Outcome.crash :=
  rfl

/-- C4 (code bug): the active-time display does not freeze when focus leaves
a url.  The timer subprocedure folds `now - start` into the accumulated time
on a focus switch but never removes the url's `tab_start_times` entry, and
the display adds `now - start` for every url with a start-time entry.
Failing input: u.com becomes active at time 0 and loses focus to v.com at
time 10.  The claim requires `elapsed(u.com, t)` to equal its value at the
switch for all later t; the code reports 20 at time 10 (the frozen 10
seconds double-counted with the stale running timer) and 25 at time 15 —
still growing. -/
theorem C4_active_time_freeze_violation :
    (ui_elapsed_seconds
      (observeStep (observeStep initProgState initLoopLocals ⟨"U", "u.com"⟩ 0).1
        (observeStep initProgState initLoopLocals ⟨"U", "u.com"⟩ 0).2
        ⟨"V", "v.com"⟩ 10).1 "u.com" 10 = 20) ∧
    (ui_elapsed_seconds
      (observeStep (observeStep initProgState initLoopLocals ⟨"U", "u.com"⟩ 0).1
        (observeStep initProgState initLoopLocals ⟨"U", "u.com"⟩ 0).2
        ⟨"V", "v.com"⟩ 10).1 "u.com" 15 = 25) ∧
    (observeStep (observeStep initProgState initLoopLocals ⟨"U", "u.com"⟩ 0).1
        (observeStep initProgState initLoopLocals ⟨"U", "u.com"⟩ 0).2
        ⟨"V", "v.com"⟩ 10).1.tab_active_times = [("u.com", 10)] := by
  decide

/-- C5 counterexample.  With S1 = [X, Y] the letters a, b are in use; on
S2 = [X, Y, Z] the departed-letter/free-pool story predicts the newly
appeared Z receives c, the lowest-ordered unused letter.  In fact Z is
assigned a — the first letter of the alphabet, currently held by the
still-present X — and c stays unused. -/
theorem C5_letter_reuse_counterexample :
    dictGet? 'c' (run_rebuilds ([], [])
      [[⟨1, "X", "x.com"⟩, ⟨1, "Y", "y.com"⟩],
       [⟨1, "X", "x.com"⟩, ⟨1, "Y", "y.com"⟩, ⟨1, "Z", "z.com"⟩]]).2 = none ∧
    dictGet? 'a' (run_rebuilds ([], [])
      [[⟨1, "X", "x.com"⟩, ⟨1, "Y", "y.com"⟩],
       [⟨1, "X", "x.com"⟩, ⟨1, "Y", "y.com"⟩, ⟨1, "Z", "z.com"⟩]]).2 =
      some ⟨1, "Z", "z.com", 3⟩ ∧
    dictGet? 'b' (run_rebuilds ([], [])
      [[⟨1, "X", "x.com"⟩, ⟨1, "Y", "y.com"⟩],
       [⟨1, "X", "x.com"⟩, ⟨1, "Y", "y.com"⟩, ⟨1, "Z", "z.com"⟩]]).2 =
      some ⟨1, "Y", "y.com", 2⟩ := by
  decide

/-- C5 (amended): letters are not released to a free pool and newly appeared
identities do not receive the lowest unused letter.  Instead, with the
cycle's letter counter at index `idx`, the first unseen identity of the
snapshot is assigned the letter at `idx` — regardless of which letters are
currently in use, overwriting that letter's previous holder — and existing
letter-map entries are never deleted (a disappeared identity's letter stays
mapped until such an overwrite). -/
theorem C5_letter_reuse_amended (ws : Windows) (lm : LetterMap) (idx : Nat)
    (S : List SnapTab) (c : Char) (t : SnapTab)
    (hc : tabLetters.get? idx = some c)
    (hfind : S.find? (fun x => !tab_exists_in_window (windowsGet ws x.window)
      ⟨x.title, x.url⟩) = some t) :
    dictGet? c (rebuildAux ws lm idx S).2 =
      some ⟨t.window, t.title, t.url, (windowsGet ws t.window).length + 1⟩ ∧
    ∀ c' e, dictGet? c' lm = some e →
      (dictGet? c' (rebuildAux ws lm idx S).2).isSome = true :=
  ⟨rebuildAux_first_new S ws lm idx c t hc hfind,
   fun c' e h => rebuildAux_lmap_isSome S ws lm idx c' (by rw [h]; rfl)⟩

/-- Witness for C5: from the state built by [X, Y] (letters a, b in use),
rebuilding on [X, Y, Z] assigns the unseen Z the letter at counter index 0 —
that is, a — and keeps b mapped. -/
theorem C5_letter_reuse_witness :
    dictGet? 'a' (rebuildAux [(1, [⟨"X", "x.com"⟩, ⟨"Y", "y.com"⟩])]
      [('a', ⟨1, "X", "x.com", 1⟩), ('b', ⟨1, "Y", "y.com", 2⟩)] 0
      [⟨1, "X", "x.com"⟩, ⟨1, "Y", "y.com"⟩, ⟨1, "Z", "z.com"⟩]).2 =
      some ⟨1, "Z", "z.com",
        (windowsGet [(1, [⟨"X", "x.com"⟩, ⟨"Y", "y.com"⟩])] 1).length + 1⟩ ∧
    ∀ c' e, dictGet? c'
        ([('a', ⟨1, "X", "x.com", 1⟩), ('b', ⟨1, "Y", "y.com", 2⟩)] : LetterMap) = some e →
      (dictGet? c' (rebuildAux [(1, [⟨"X", "x.com"⟩, ⟨"Y", "y.com"⟩])]
        [('a', ⟨1, "X", "x.com", 1⟩), ('b', ⟨1, "Y", "y.com", 2⟩)] 0
        [⟨1, "X", "x.com"⟩, ⟨1, "Y", "y.com"⟩, ⟨1, "Z", "z.com"⟩]).2).isSome = true :=
  C5_letter_reuse_amended [(1, [⟨"X", "x.com"⟩, ⟨"Y", "y.com"⟩])]
    [('a', ⟨1, "X", "x.com", 1⟩), ('b', ⟨1, "Y", "y.com", 2⟩)] 0
    [⟨1, "X", "x.com"⟩, ⟨1, "Y", "y.com"⟩, ⟨1, "Z", "z.com"⟩] 'a'
    ⟨1, "Z", "z.com"⟩ (by decide) (by decide)

/-- C6 counterexample.  "Two tabs with identical (title, url) in the same
window occupy exactly one registry slot" fails in a later cycle: the
duplicate pair D is given the single letter a on its first snapshot, but on
the next snapshot — which still contains both copies of D in the same
window — the newly appeared Q is assigned a (the counter restarts at 0 and
the skipped D-copies do not advance it), overwriting D's only slot.  The
final letter map is exactly [(a, Q)]: the duplicated pair occupies zero
slots, not one. -/
theorem C6_dedup_counterexample :
    (run_rebuilds ([], []) [[⟨1, "D", "d.com"⟩, ⟨1, "D", "d.com"⟩]]).2 =
      [('a', ⟨1, "D", "d.com", 1⟩)] ∧
    (run_rebuilds ([], [])
      [[⟨1, "D", "d.com"⟩, ⟨1, "D", "d.com"⟩],
       [⟨1, "D", "d.com"⟩, ⟨1, "D", "d.com"⟩, ⟨1, "Q", "q.com"⟩]]).2 =
      [('a', ⟨1, "Q", "q.com", 2⟩)] := by
  decide

/-- C6 (amended): two tabs with identical (title, url) observed in the same
window occupy AT MOST one registry slot — the duplicate is skipped and never
given a second letter, so over any run from the initial state no identity
triple is ever held by two different letters — but the pair's single slot can
later be overwritten by a newly appeared tab's allocation, leaving it with
none. -/
theorem C6_dedup_amended (snaps : List (List SnapTab)) (c c' : Char)
    (e e' : RegEntry)
    (h1 : dictGet? c (run_rebuilds ([], []) snaps).2 = some e)
    (h2 : dictGet? c' (run_rebuilds ([], []) snaps).2 = some e')
    (h3 : tripleOfEntry e = tripleOfEntry e') : c = c' := by
  have hinv := run_rebuilds_inv snaps [] []
    (fun c0 e0 h0 => by simp [dictGet?] at h0)
    (fun c0 c0' e0 e0' h0 => by simp [dictGet?] at h0)
  exact hinv.2 c c' e e' h1 h2 h3

/-- Witness for C6: after the duplicate snapshot [D, D], the letter a holds
the single slot of the pair, and the at-most-one-slot theorem applies. -/
theorem C6_dedup_witness :
    dictGet? 'a' (run_rebuilds ([], [])
      [[⟨1, "D", "d.com"⟩, ⟨1, "D", "d.com"⟩]]).2 = some ⟨1, "D", "d.com", 1⟩ ∧
    ('a' : Char) = 'a' :=
  ⟨by decide,
   C6_dedup_amended [[⟨1, "D", "d.com"⟩, ⟨1, "D", "d.com"⟩]] 'a' 'a'
     ⟨1, "D", "d.com", 1⟩ ⟨1, "D", "d.com", 1⟩ (by decide) (by decide) (by decide)⟩

/-- C7 counterexample.  The claim says that in every snapshot with more than
26 distinct identities exactly the first 26 in enumeration order receive
letters and the rest receive none.  `overflowSnap` has 27 distinct
identities (the previously seen X first, then 26 unseen tabs); in the cycle
that processes it the skipped X advances no counter, so the 26 unseen tabs
take letters a through z: the 27th identity in enumeration order (index 26)
ends up holding letter z, and letter a holds the 2nd identity rather than
the 1st. -/
theorem C7_overflow_counterexample :
    26 < overflowSnap.length ∧
    (overflowSnap.map tripleOf).Nodup ∧
    overflowSnap.get? 26 = some ⟨1, "Y", "yz"⟩ ∧
    dictGet? 'z' (run_rebuilds ([], [])
      [[⟨1, "X", "x.com"⟩], overflowSnap]).2 = some ⟨1, "Y", "yz", 27⟩ ∧
    dictGet? 'a' (run_rebuilds ([], [])
      [[⟨1, "X", "x.com"⟩], overflowSnap]).2 = some ⟨1, "Y", "ya", 2⟩ := by
  decide

/-- C7 (amended): the overflow behaviour holds for the snapshot that a fresh
registry (the initial, empty state) processes: given more than 26 pairwise
distinct tab identities, the first 26 in enumeration order receive the
letters a through z in order, every identity from position 27 on receives no
letter (no letter resolves to its identity triple), with no wraparound and
no error.  On later cycles, previously seen identities are skipped without
advancing the letter counter, so the first-26 property can fail (see the
counterexample). -/
theorem C7_overflow_amended (S : List SnapTab)
    (hnd : (S.map tripleOf).Nodup) (hlen : 26 < S.length) :
    (∀ i c x, i < 26 → tabLetters.get? i = some c → S.get? i = some x →
      (dictGet? c (registry_rebuild [] [] S).2).map tripleOfEntry =
        some (tripleOf x)) ∧
    (∀ i x, 26 ≤ i → S.get? i = some x → ∀ c,
      (dictGet? c (registry_rebuild [] [] S).2).map tripleOfEntry ≠
        some (tripleOf x)) := by
  have hfresh : ∀ t ∈ S,
      tab_exists_in_window (windowsGet ([] : Windows) t.window) ⟨t.title, t.url⟩ = false :=
    fun t _ => rfl
  constructor
  · intro i c x _ hc hx
    exact rebuildAux_fresh_assign S [] [] 0 i c x hfresh hnd (by simpa using hc) hx
  · intro i x h26 hx c hcontra
    obtain ⟨e, he, htr⟩ := Option.map_eq_some'.mp hcontra
    rcases rebuildAux_fresh_range S [] [] 0 c e hfresh hnd he with h1 | h1
    · simp [dictGet?] at h1
    · obtain ⟨j, x', hj, hjlt, he'⟩ := h1
      have hij : i = j := by
        have hmi : (S.map tripleOf).get? i = some (tripleOf x) := by
          rw [List.get?_map, hx, Option.map_some']
        have hmj : (S.map tripleOf).get? j = some (tripleOf x') := by
          rw [List.get?_map, hj, Option.map_some']
        have hieq : (S.map tripleOf).get? i = (S.map tripleOf).get? j := by
          rw [hmi, hmj, ← htr, he']
        have hiS : i < S.length := by
          by_contra hge
          rw [List.get?_eq_none.mpr (Nat.le_of_not_lt hge)] at hx
          exact Option.noConfusion hx
        have hilen : i < (S.map tripleOf).length := by
          rw [List.length_map]
          exact hiS
        exact List.get?_inj hilen hnd hieq
      rw [tabLetters_length] at hjlt
      simp only [Nat.zero_add] at hjlt
      omega

/-- Witness for C7: the 30-identity snapshot `wideSnap` is pairwise distinct
and longer than 26, so from the initial state the first 26 identities get
letters a-z in order and identities 27-30 get none. -/
theorem C7_overflow_witness :
    ((wideSnap.map tripleOf).Nodup ∧ 26 < wideSnap.length) ∧
    ((∀ i c x, i < 26 → tabLetters.get? i = some c → wideSnap.get? i = some x →
      (dictGet? c (registry_rebuild [] [] wideSnap).2).map tripleOfEntry =
        some (tripleOf x)) ∧
    (∀ i x, 26 ≤ i → wideSnap.get? i = some x → ∀ c,
      (dictGet? c (registry_rebuild [] [] wideSnap).2).map tripleOfEntry ≠
        some (tripleOf x))) :=
  ⟨⟨by decide, by decide⟩, C7_overflow_amended wideSnap (by decide) (by decide)⟩

/-- C8: the closed-tab undo stack is a strict LIFO with a silent empty pop.
`stack_push` appends unconditionally — pushing the same url twice records it
twice; after pushing "a.com" then "b.com", the first reopen pops "b.com",
the second pops "a.com", and a reopen on the empty stack leaves the state
unchanged and issues no command (and raises nothing: the operation is
total). -/
theorem C8_undo_stack_lifo :
    (∀ (s : List String) (u : String), stack_push (stack_push s u) u = s ++ [u, u]) ∧
    (∀ st : ProgState,
      reopen_last_closed_tab { st with closed_tabs_stack := stack_push (stack_push st.closed_tabs_stack "a.com") "b.com" } =
        ({ st with closed_tabs_stack := stack_push st.closed_tabs_stack "a.com" },
          some (Command.reopen "b.com"))) ∧
    (∀ st : ProgState,
      reopen_last_closed_tab { st with closed_tabs_stack := stack_push st.closed_tabs_stack "a.com" } =
        (st, some (Command.reopen "a.com"))) ∧
    (∀ st : ProgState,
      reopen_last_closed_tab { st with closed_tabs_stack := [] } =
        ({ st with closed_tabs_stack := [] }, none)) := by
  refine ⟨fun s u => by simp [stack_push], fun st => ?_, fun st => ?_, fun st => ?_⟩
  · simp [reopen_last_closed_tab, stack_push, List.getLast?_concat, List.dropLast_concat]
  · simp [reopen_last_closed_tab, stack_push, List.getLast?_concat, List.dropLast_concat]
  · simp [reopen_last_closed_tab]

/-- C9 (code bug): dispatching an activate command does NOT leave the
active-time tracker state unchanged.  `manage_safari_tab` stamps
`tab_start_times[tab_letter] = time.time()` before resolving the letter —
keyed by the letter itself, although every other reader and writer of
`tab_start_times` keys it by url.  Failing input: letter b mapped, lowercase
b pressed at time 100 — the activate command is issued and the tracker's
start-time dictionary gains the entry ("b", 100). -/
theorem C9_tracker_frame_violation :
    manage_safari_tab ⟨[], [], [], [], [('b', ⟨1, "T", "t.com", 1⟩)]⟩ 'b' false 100 =
      ManageResult.ok ⟨[], [("b", 100)], [], [], [('b', ⟨1, "T", "t.com", 1⟩)]⟩
        (Command.activate 1 1) := by
  decide

/-- C10: the letter map and the per-window seen-tab lists only ever grow.
Over any rebuild cycle from any state: a letter that is mapped stays mapped
(to some entry — possibly a newer overwriting tab); each window's seen list
is only ever extended at the end; and a (title, url) pair once recorded for
a window still passes the `tab_exists_in_window` dedup test after the cycle,
so every later occurrence of it in that window is skipped. -/
theorem C10_registry_monotone (ws : Windows) (lm : LetterMap) (idx : Nat)
    (S : List SnapTab) (c : Char) (e : RegEntry) (w : Nat) (info : TabInfo)
    (hc : dictGet? c lm = some e)
    (hw : info ∈ windowsGet ws w) :
    (dictGet? c (rebuildAux ws lm idx S).2).isSome = true ∧
    (∃ l2, windowsGet (rebuildAux ws lm idx S).1 w = windowsGet ws w ++ l2) ∧
    tab_exists_in_window (windowsGet (rebuildAux ws lm idx S).1 w) info = true := by
  refine ⟨rebuildAux_lmap_isSome S ws lm idx c (by rw [hc]; rfl),
    rebuildAux_windows_grow S ws lm idx w, ?_⟩
  obtain ⟨l2, hl2⟩ := rebuildAux_windows_grow S ws lm idx w
  rw [hl2, tab_exists_append, tab_exists_of_mem hw, Bool.true_or]

/-- Witness for C10: a state with letter a mapped and one recorded tab in
window 1, rebuilt on a snapshot containing a new tab. -/
theorem C10_registry_monotone_witness :
    (dictGet? 'a' (rebuildAux [(1, [⟨"A", "a.com"⟩])] [('a', ⟨1, "A", "a.com", 1⟩)] 0
      [⟨1, "B", "b.com"⟩]).2).isSome = true ∧
    (∃ l2, windowsGet (rebuildAux [(1, [⟨"A", "a.com"⟩])] [('a', ⟨1, "A", "a.com", 1⟩)] 0
      [⟨1, "B", "b.com"⟩]).1 1 = windowsGet [(1, [⟨"A", "a.com"⟩])] 1 ++ l2) ∧
    tab_exists_in_window (windowsGet (rebuildAux [(1, [⟨"A", "a.com"⟩])]
      [('a', ⟨1, "A", "a.com", 1⟩)] 0 [⟨1, "B", "b.com"⟩]).1 1) ⟨"A", "a.com"⟩ = true :=
  C10_registry_monotone [(1, [⟨"A", "a.com"⟩])] [('a', ⟨1, "A", "a.com", 1⟩)] 0
    [⟨1, "B", "b.com"⟩] 'a' ⟨1, "A", "a.com", 1⟩ 1 ⟨"A", "a.com"⟩
    (by decide) (by decide)
